import Mathlib

/-!
Verification of the polyellipsoid repository: a shallow embedding of the
bead/chain construction code (ellipsoid.py), the system assembly and
density-driven box solver (system.py), and the simulation-phase state
machine (simulate.py), together with theorems settling the specification
claims about them.
-/

namespace Polyellipsoid

/-- The Python exception classes that the embedded code can raise.
`valueError` is the concrete class the source raises for the validation
errors the spec's taxonomy calls ConfigurationError. -/
inductive PyError where
  | typeError
  | valueError
  | assertionError
  | indexError
deriving DecidableEq, Repr

/-- A 3-component vector with exact rational coordinates, standing for the
numpy length-3 arrays used for positions and axes. -/
structure Vec3 where
  x : ℚ
  y : ℚ
  z : ℚ
deriving DecidableEq, Repr

/-- Componentwise scalar multiple: `c * v` for a numpy array `v`. -/
def Vec3.smul (c : ℚ) (v : Vec3) : Vec3 :=
  ⟨c * v.x, c * v.y, c * v.z⟩

/-- Componentwise negation: `-v` for a numpy array `v`. -/
def Vec3.neg (v : Vec3) : Vec3 :=
  ⟨-v.x, -v.y, -v.z⟩

/-- Componentwise subtraction: `a - b` for numpy arrays. -/
def Vec3.sub (a b : Vec3) : Vec3 :=
  ⟨a.x - b.x, a.y - b.y, a.z - b.z⟩

/-- The origin `np.array([0,0,0])`. -/
def Vec3.zero : Vec3 := ⟨0, 0, 0⟩

/-- One mbuild `Compound` leaf particle: a name, a position and a mass,
as constructed in Ellipsoid.__init__ (ellipsoid.py:27-57). -/
structure Particle where
  name : String
  pos : Vec3
  mass : ℚ
deriving DecidableEq, Repr

/-- The observable result of Ellipsoid.__init__ (ellipsoid.py:8-58): the
constituent particles in the order they are added to the compound, and the
bonds, each bond given by the names of its two endpoint particles. -/
structure Ellipsoid where
  name : String
  particles : List Particle
  bonds : List (String × String)
deriving DecidableEq, Repr

/-- Python truthiness of the `minor_length` argument: `None` and `0.0` are
falsy, every other float is truthy. -/
def pyTruthyQ : Option ℚ → Bool
  | none => false
  | some v => decide (v ≠ 0)

/-- Python truthiness of the `minor_axis` argument at ellipsoid.py:23: a
supplied (non-empty, length-3) axis list is always truthy, `None` is falsy. -/
def pyTruthyAxis : Option Vec3 → Bool
  | none => false
  | some _ => true

/-- The condition `minor_length and minor_axis` of ellipsoid.py:23 and :47
that selects the 5-particle bead layout. -/
def hasFive (minor_length : Option ℚ) (minor_axis : Option Vec3) : Bool :=
  pyTruthyQ minor_length && pyTruthyAxis minor_axis

/-- Embedding of Ellipsoid.__init__ (ellipsoid.py:8-58).  Builds the head,
center and tail constituents at `±major_axis*major_length/2` and the origin,
adds them in the order `[head, mid, tail]` (ellipsoid.py:43), creates the
single center-head bond (ellipsoid.py:44), and, when
`minor_length and minor_axis` is truthy, appends the right/left constituents
at `±minor_axis*minor_length/2` (ellipsoid.py:47-58).  Each constituent
carries mass `mass/n_particles` where `n_particles` is 5 exactly under the
same truthiness condition (ellipsoid.py:22-24). -/
def mkEllipsoid (name : String) (mass major_length : ℚ) (major_axis : Vec3)
    (minor_length : Option ℚ) (minor_axis : Option Vec3) : Ellipsoid :=
  let n_particles : ℚ := if hasFive minor_length minor_axis then 5 else 3
  let head : Particle := ⟨"CH", Vec3.smul (major_length / 2) major_axis, mass / n_particles⟩
  let tail : Particle := ⟨"CT", (Vec3.smul (major_length / 2) major_axis).neg, mass / n_particles⟩
  let mid : Particle := ⟨"CC", Vec3.zero, mass / n_particles⟩
  if hasFive minor_length minor_axis then
    let ml := minor_length.getD 0
    let ma := minor_axis.getD Vec3.zero
    let right : Particle := ⟨"CR", Vec3.smul (ml / 2) ma, mass / n_particles⟩
    let left : Particle := ⟨"CL", (Vec3.smul (ml / 2) ma).neg, mass / n_particles⟩
    ⟨name, [head, mid, tail, right, left], [("CC", "CH")]⟩
  else
    ⟨name, [head, mid, tail], [("CC", "CH")]⟩

/-- The parameter names accepted by Ellipsoid.__init__ (ellipsoid.py:8-16). -/
def ellipsoidParams : List String :=
  ["name", "mass", "major_length", "major_axis", "minor_length", "minor_axis"]

/-- The parameters of Ellipsoid.__init__ that have no default value and must
be supplied by the caller (ellipsoid.py:8-16). -/
def ellipsoidRequired : List String :=
  ["name", "mass", "major_length"]

/-- Python keyword-argument resolution: calling a function whose parameters
are `params`, of which `required` have no defaults, with the keyword
arguments `provided` raises TypeError when an argument name is not a
parameter, or when a required parameter is left unbound. -/
def resolveKwargs (params required provided : List String) : Except PyError Unit :=
  if provided.any (fun k => !params.contains k) then .error .typeError
  else if required.any (fun k => !provided.contains k) then .error .typeError
  else .ok ()

/-- The call `Ellipsoid(mass=self.bead_mass, length=self.bead_length)` made by
System.__init__ at system.py:88-90, resolved against the actual signature of
Ellipsoid.__init__: the keyword `length` is not a parameter and the required
`name` and `major_length` are missing. -/
def systemEllipsoidCall : Except PyError Unit :=
  resolveKwargs ellipsoidParams ellipsoidRequired ["mass", "length"]

/-- The inner loop `for i in range(n)` of System.__init__ (system.py:87-107):
each iteration first instantiates an Ellipsoid via `systemEllipsoidCall`; the
subsequent Polymer construction delegates to the external mbuild library and
is reached only if that call succeeds.  Returns the number of chains built. -/
def systemChainInnerLoop : ℕ → ℕ → Except PyError ℕ
  | 0, acc => .ok acc
  | Nat.succ k, acc =>
    match systemEllipsoidCall with
    | .error e => .error e
    | .ok _ => systemChainInnerLoop k (acc + 1)

/-- The outer loop `for n, l in zip(n_chains, chain_lengths)` of
System.__init__ (system.py:86).  `range(n)` is empty when `n < 1`. -/
def systemChainLoop : List (ℤ × ℤ) → ℕ → Except PyError ℕ
  | [], acc => .ok acc
  | (n, _l) :: rest, acc =>
    match systemChainInnerLoop n.toNat acc with
    | .error e => .error e
    | .ok acc1 => systemChainLoop rest acc1

/-- Embedding of System.__init__ (system.py:57-107) after the scalar
arguments have been wrapped into singleton lists (system.py:66-69): the
length-equality assertion at system.py:70-72, then the chain-building loop.
The numeric parameters are carried for fidelity to the signature; they do
not influence control flow before the Ellipsoid call fails. -/
def systemInit (n_chains chain_lengths : List ℤ)
    (bead_length bead_mass density bond_length : ℚ) : Except PyError ℕ :=
  let _ := bead_length
  let _ := bead_mass
  let _ := density
  let _ := bond_length
  if n_chains.length ≠ chain_lengths.length then .error .assertionError
  else systemChainLoop (n_chains.zip chain_lengths) 0

/-- Embedding of System.stack (system.py:143-198).  The guard at
system.py:160-166 raises ValueError (the spec taxonomy's ConfigurationError)
when the total chain count differs from `n*n*2`.  The subsequent lattice
placement delegates to the external mbuild geometry library and wraps its
chain indexing in `try ... except IndexError: pass` (system.py:172-182), so
no further exception escapes this method's own logic; it is modelled as
returning successfully. -/
def stack (n_chains : List ℤ) (n : ℤ) : Except PyError Unit :=
  if n_chains.sum ≠ n * n * 2 then .error .valueError else .ok ()

/-- Modelled from the spec: the fixed, documented unit-conversion constant
cm→nm from utils/base_units (a file of this repository not present under
src/): 1 cm = 10^7 nm. -/
noncomputable def cm_to_nm : ℝ := 10 ^ 7

/-- Modelled from the spec: the fixed, documented unit-conversion constant
amu→g from utils/base_units (a file of this repository not present under
src/): 1 amu = 1.66054e-24 g. -/
noncomputable def amu_to_g : ℝ := 166054 / 10 ^ 29

/-- The system volume in cm³ demanded by the target density:
`system_mass` in amu converted to grams, divided by `density` in g/cm³
(system.py:251-252). -/
noncomputable def volOf (system_mass density : ℝ) : ℝ :=
  system_mass * amu_to_g / density

/-- Embedding of System._calculate_L (system.py:235-260) over exact reals.
With no constraints the edge is the cube root of the volume; with a list of
fixed edge lengths (in cm) the remaining edge is the volume divided by their
product, square-rooted when exactly one edge is fixed (so that the two free
edges are equal); the result is converted from cm to nm.  The source
computes the roots with numpy's float `**` operator, embedded here as the
real power `Real.rpow`. -/
noncomputable def calculate_L (system_mass density : ℝ) (fixed_L : Option (List ℝ)) : ℝ :=
  let vol := volOf system_mass density
  match fixed_L with
  | none => vol ^ ((1 : ℝ) / 3) * cm_to_nm
  | some fs =>
      let L := vol / fs.prod
      (if fs.length = 1 then L ^ ((1 : ℝ) / 2) else L) * cm_to_nm

/-- Python truthiness of one optional box constraint, as tested by
`any([x_constraint, y_constraint, z_constraint])` at system.py:222: `None`
and `0.0` are falsy, every other float is truthy. -/
def truthyR (o : Option ℝ) : Prop :=
  o ≠ none ∧ o ≠ some 0

section BoxSolver

open Classical

/-- Embedding of System.set_target_box (system.py:200-233).  When no
constraint is truthy the box is cubic with edge `calculate_L`.  Otherwise
the non-`None` constraints (selected by `constraints != None` at
system.py:226, which keeps a zero constraint) are converted from nm to cm
and passed to `calculate_L`, and each `None` entry of the resulting
(x, y, z) triple is replaced by the solved length. -/
noncomputable def set_target_box (system_mass density : ℝ)
    (xc yc zc : Option ℝ) : ℝ × ℝ × ℝ :=
  if truthyR xc ∨ truthyR yc ∨ truthyR zc then
    let fs := (List.filterMap id [xc, yc, zc]).map (· / cm_to_nm)
    let L := calculate_L system_mass density (some fs)
    (xc.getD L, yc.getD L, zc.getD L)
  else
    let L := calculate_L system_mass density none
    (L, L, L)

end BoxSolver

/-- All values carried by an optional box constraint are positive. -/
def optPos (o : Option ℝ) : Prop :=
  ∀ v : ℝ, o = some v → 0 < v

/-- The product of the three entries of a box triple. -/
noncomputable def boxProd (t : ℝ × ℝ × ℝ) : ℝ :=
  t.1 * t.2.1 * t.2.2

/-- Embedding of the external collaborator cmeutils.geometry.moit as called
at simulate.py:113: the principal moments of inertia of a finite set of
point masses about the origin,
`I_x = Σ m(y²+z²)`, `I_y = Σ m(x²+z²)`, `I_z = Σ m(x²+y²)`. -/
def moit (coords : List Vec3) (masses : List ℚ) : Vec3 :=
  let ps := coords.zip masses
  ⟨(ps.map fun p => p.2 * (p.1.y ^ 2 + p.1.z ^ 2)).sum,
   (ps.map fun p => p.2 * (p.1.x ^ 2 + p.1.z ^ 2)).sum,
   (ps.map fun p => p.2 * (p.1.x ^ 2 + p.1.y ^ 2)).sum⟩

/-- The particle arrays of the hoomd snapshot that Simulation.__init__
reads and writes (simulate.py:97-114): per-particle positions, masses and
moment-of-inertia rows. -/
structure Snapshot where
  positions : List Vec3
  masses : List ℚ
  moment_inertia : List Vec3
deriving DecidableEq, Repr

/-- The numpy slice assignment `arr[0:k] = v` with a broadcast row `v`:
the first `k` existing rows are replaced by `v`, the rest are unchanged. -/
def overwriteFirstK (k : ℕ) (v : Vec3) : List Vec3 → List Vec3
  | [] => []
  | a :: rest =>
    match k with
    | 0 => a :: rest
    | Nat.succ k0 => v :: overwriteFirstK k0 v rest

/-- Embedding of the moment-of-inertia setup in Simulation.__init__
(simulate.py:97-114): the first bead's two constituent particles sit at
snapshot indices `n_beads` and `n_beads + 1`; their positions are
re-centered on the first rigid center's position (index 0 — the fancy
indexing at simulate.py:102 copies, so the snapshot positions are not
mutated), each is assigned mass `bead_mass/2`, their moment of inertia is
computed once by `moit`, and that single row is written into the
moment-of-inertia entries of all `n_beads` rigid centers. -/
def setMomentInertia (n_beads : ℕ) (bead_mass : ℚ) (snap : Snapshot) : Snapshot :=
  let r_pos := snap.positions.getD 0 Vec3.zero
  let c_pos := [(snap.positions.getD n_beads Vec3.zero).sub r_pos,
                (snap.positions.getD (n_beads + 1) Vec3.zero).sub r_pos]
  let m := moit c_pos [bead_mass / 2, bead_mass / 2]
  { snap with moment_inertia := overwriteFirstK n_beads m snap.moment_inertia }

/-- An observable action performed on the external hoomd engine by the
shrink/quench/anneal phase methods of simulate.py. -/
inductive Event where
  | setKT (kT : ℚ)
  | newMethod (id : ℕ) (kT : ℚ)
  | addIntegrator
  | thermalize (kT : ℚ)
  | run (steps : ℕ)
deriving DecidableEq, Repr

/-- A `hoomd.md.methods.NVT` thermostat method object: `id` models Python
object identity (so that in-place mutation of `kT` can be told apart from
replacement by a fresh object), `kT` its current temperature. -/
structure Method where
  id : ℕ
  kT : ℚ
deriving DecidableEq, Repr

/-- The state of a Simulation object (simulate.py) that the phase methods
read and mutate: the `ran_shrink` flag, the integrator's method list, a
counter supplying fresh object identities, running totals of NVT-method
constructions, `sim.operations.add(integrator)` calls, force-list and
rigid-constraint registrations (both performed once, in `__init__`), and
the trace of engine actions in program order. -/
structure SimState where
  ran_shrink : Bool
  methods : List Method
  nextId : ℕ
  created : ℕ
  integratorAdds : ℕ
  forcesRegistrations : ℕ
  rigidRegistrations : ℕ
  trace : List Event
deriving DecidableEq, Repr

/-- The state of a Simulation right after Simulation.__init__
(simulate.py:48-140): shrink has not run, no integrator method exists yet
(simulate.py:128 — the method is added in the three phase methods), and the
forces and the rigid constraint have each been registered once. -/
def initSimState : SimState :=
  { ran_shrink := false
    methods := []
    nextId := 0
    created := 0
    integratorAdds := 0
    forcesRegistrations := 1
    rigidRegistrations := 1
    trace := [] }

/-- Constructing `hoomd.md.methods.NVT(filter=self.centers, kT=kT, tau=...)`:
a fresh method object with a new identity. -/
def newNVT (kT : ℚ) (s : SimState) : Method × SimState :=
  (⟨s.nextId, kT⟩,
   { s with
      nextId := s.nextId + 1
      created := s.created + 1
      trace := s.trace ++ [.newMethod s.nextId kT] })

/-- The assignment `self.integrator.methods[0].kT = kT`
(simulate.py:195 and simulate.py:245): mutates the temperature of the
existing first method object in place, raising IndexError when the method
list is empty. -/
def setHeadKT (kT : ℚ) (s : SimState) : Except PyError SimState :=
  match s.methods with
  | [] => .error .indexError
  | m :: rest =>
      .ok { s with
              methods := { m with kT := kT } :: rest
              trace := s.trace ++ [.setKT kT] }

/-- `self.sim.state.thermalize_particle_momenta(...)` followed by
`self.sim.run(steps)`. -/
def thermalizeRun (kT : ℚ) (steps : ℕ) (s : SimState) : SimState :=
  { s with trace := s.trace ++ [.thermalize kT, .run steps] }

/-- Installing a freshly constructed NVT method: `self.integrator.methods =
[integrator_method]` followed by `self.sim.operations.add(self.integrator)`
(simulate.py:200-201, 236-237, 177-178). -/
def installFresh (kT : ℚ) (s : SimState) : SimState :=
  let p := newNVT kT s
  { p.2 with
      methods := [p.1]
      integratorAdds := p.2.integratorAdds + 1
      trace := p.2.trace ++ [.addIntegrator] }

/-- Embedding of Simulation.shrink (simulate.py:142-181), with the
box-resize updater (pure external-engine configuration) elided: creates and
installs a fresh NVT method at `kT`, thermalizes, runs `n_steps + 1` steps
(simulate.py:180) and sets the `ran_shrink` flag. -/
def shrink (kT : ℚ) (n_steps : ℕ) (s : SimState) : SimState :=
  let s1 := installFresh kT s
  let s2 := thermalizeRun kT (n_steps + 1) s1
  { s2 with ran_shrink := true }

/-- Embedding of Simulation.quench (simulate.py:183-204): when shrink has
run, the existing first method's temperature is mutated in place; otherwise
a fresh NVT method is constructed and installed; then velocities are
re-thermalized and `n_steps` steps run. -/
def quench (kT : ℚ) (n_steps : ℕ) (s : SimState) : Except PyError SimState :=
  match (if s.ran_shrink then setHeadKT kT s else .ok (installFresh kT s)) with
  | .error e => .error e
  | .ok s1 => .ok (thermalizeRun kT n_steps s1)

/-- `np.linspace(a, b, num)`: `num` evenly spaced points from `a` to `b`
inclusive (empty for `num = 0`, just `a` for `num = 1`). -/
def linspace (a b : ℚ) : ℕ → List ℚ
  | 0 => []
  | 1 => [a]
  | Nat.succ (Nat.succ n) =>
      (List.range (n + 2)).map fun i => a + i * (b - a) / (n + 1)

/-- Round-half-to-even to an integer, the rounding rule of `np.round`
applied to an exact rational value. -/
def roundHalfEven (q : ℚ) : ℤ :=
  let f := ⌊q⌋
  let r := q - f
  if r < 1 / 2 then f
  else if 1 / 2 < r then f + 1
  else if f % 2 = 0 then f else f + 1

/-- `np.round(t, 1)`: round to one decimal place, half to even. -/
def round1 (q : ℚ) : ℚ :=
  (roundHalfEven (10 * q) : ℚ) / 10

/-- Inserting one key/value pair into a Python dict viewed as an
insertion-ordered association list: an existing key keeps its position and
silently takes the new value, a new key is appended. -/
def dictInsert (d : List (ℚ × ℕ)) (k : ℚ) (v : ℕ) : List (ℚ × ℕ) :=
  if d.any fun p => p.1 = k then
    d.map fun p => if p.1 = k then (k, v) else p
  else d ++ [(k, v)]

/-- `dict(zip(ks, vs))`: build a Python dict from parallel key and value
lists, later duplicate keys overwriting earlier values. -/
def dictZip (ks : List ℚ) (vs : List ℕ) : List (ℚ × ℕ) :=
  (ks.zip vs).foldl (fun d p => dictInsert d p.1 p.2) []

/-- The temperature schedule Simulation.anneal builds when no explicit
schedule is given (simulate.py:239-242): `len(step_sequence)` temperatures
spaced linearly from `kT_init` to `kT_final`, each rounded to one decimal,
zipped with the step counts into a dict. -/
def buildSchedule (kT_init kT_final : ℚ) (step_sequence : List ℕ) : List (ℚ × ℕ) :=
  dictZip ((linspace kT_init kT_final step_sequence.length).map round1) step_sequence

/-- The engine actions of one anneal segment (simulate.py:244-249): set the
first method's temperature, re-thermalize the velocities, run the segment's
steps. -/
def segEvents (p : ℚ × ℕ) : List Event :=
  [.setKT p.1, .thermalize p.1, .run p.2]

/-- The engine actions of a whole schedule, segment by segment in order. -/
def segTrace : List (ℚ × ℕ) → List Event
  | [] => []
  | p :: rest => segEvents p ++ segTrace rest

/-- The temperature loop of Simulation.anneal (simulate.py:244-249). -/
def annealLoop : List (ℚ × ℕ) → SimState → Except PyError SimState
  | [], s => .ok s
  | (kT, steps) :: rest, s =>
      match setHeadKT kT s with
      | .error e => .error e
      | .ok s1 => annealLoop rest (thermalizeRun kT steps s1)

/-- Embedding of Simulation.anneal (simulate.py:206-249): when shrink has
not run a fresh NVT method at the default `kT = 1.0` is installed
(simulate.py:232-237); when the `schedule` argument is falsy (None or the
empty dict) the linear-ramp schedule is built from `kT_init`, `kT_final`
and `step_sequence` (simulate.py:239-242); the schedule is then executed in
insertion order (simulate.py:244-249). -/
def anneal (kT_init kT_final : ℚ) (step_sequence : List ℕ)
    (schedule : List (ℚ × ℕ)) (s : SimState) : Except PyError SimState :=
  let s0 := if s.ran_shrink then s else installFresh 1 s
  let sched := if schedule = [] then buildSchedule kT_init kT_final step_sequence
    else schedule
  annealLoop sched s0

deriving instance DecidableEq for Except

/-- Recognizes the `sim.run` events of a trace. -/
def isRunEvent : Event → Bool
  | .run _ => true
  | _ => false

/-- A Simulation state reached by running one shrink phase from the initial
state: `ran_shrink` is set and the single thermostat method created by
shrink is installed. -/
def shrunkState : SimState :=
  shrink 1 100 initSimState

/-- The state produced by `anneal 1 2 [10] []` from `shrunkState`: the
existing method is reused and one segment at the rounded temperature 1 is
executed. -/
def annealShrunkResult : SimState :=
  { shrunkState with trace := shrunkState.trace ++ [.setKT 1, .thermalize 1, .run 10] }

/-- A small concrete snapshot with one rigid center (index 0) and two
constituent particles (indices 1 and 2). -/
def witnessSnap : Snapshot :=
  { positions := [⟨0, 0, 0⟩, ⟨1, 2, 3⟩, ⟨-1, -2, -3⟩]
    masses := [5, 5, 5]
    moment_inertia := [⟨9, 9, 9⟩, ⟨8, 8, 8⟩, ⟨7, 7, 7⟩] }

/-- The 5-particle layout is selected exactly when both minor arguments are
supplied and `minor_length` is nonzero (Python truthiness of
`minor_length and minor_axis`). -/
theorem hasFive_iff (ml : Option ℚ) (ma : Option Vec3) :
    hasFive ml ma = true ↔ ml ≠ none ∧ ml ≠ some 0 ∧ ma ≠ none := by
  cases ml <;> cases ma <;>
    simp [hasFive, pyTruthyQ, pyTruthyAxis]

/-- C3 counterexample: supplying `minor_length = 0.0` together with a minor
axis is "both minor_length and minor_axis supplied", yet the bead has 3
constituents, not 5, because `if minor_length and minor_axis` tests Python
truthiness and `0.0` is falsy (ellipsoid.py:23). -/
theorem mkEllipsoid_five_counterexample :
    (some (0 : ℚ) ≠ (none : Option ℚ)) ∧
    (some (⟨0, 1, 0⟩ : Vec3) ≠ (none : Option Vec3)) ∧
    (mkEllipsoid "A" 100 2 ⟨1, 0, 0⟩ (some 0) (some ⟨0, 1, 0⟩)).particles.length = 3 := by
  refine ⟨by simp, by simp, ?_⟩
  rfl

/-- C3 (amended): for every mass `m` and major length `L`, the bead has a
head constituent at `+major_axis*L/2`, a tail at `-major_axis*L/2` and a
center at the origin; the constituent count is 3 normally and 5 exactly
when both `minor_length` and `minor_axis` are supplied with a truthy
(nonzero) `minor_length` (then left/right constituents sit at
`±minor_axis*minor_length/2`); each constituent's mass is `m` divided by
that count; and exactly one bond is created, between the center and the
head. -/
theorem mkEllipsoid_spec (name : String) (m L : ℚ) (axis : Vec3)
    (ml : Option ℚ) (ma : Option Vec3) :
    (mkEllipsoid name m L axis ml ma).particles.length
        = (if hasFive ml ma then 5 else 3) ∧
    ((mkEllipsoid name m L axis ml ma).particles.length = 5
        ↔ ml ≠ none ∧ ml ≠ some 0 ∧ ma ≠ none) ∧
    (mkEllipsoid name m L axis ml ma).particles[0]? =
        some ⟨"CH", Vec3.smul (L / 2) axis, m / (if hasFive ml ma then 5 else 3)⟩ ∧
    (mkEllipsoid name m L axis ml ma).particles[1]? =
        some ⟨"CC", Vec3.zero, m / (if hasFive ml ma then 5 else 3)⟩ ∧
    (mkEllipsoid name m L axis ml ma).particles[2]? =
        some ⟨"CT", (Vec3.smul (L / 2) axis).neg, m / (if hasFive ml ma then 5 else 3)⟩ ∧
    (∀ p ∈ (mkEllipsoid name m L axis ml ma).particles,
        p.mass = m / (if hasFive ml ma then 5 else 3)) ∧
    (hasFive ml ma = true →
        (mkEllipsoid name m L axis ml ma).particles[3]? =
          some ⟨"CR", Vec3.smul (ml.getD 0 / 2) (ma.getD Vec3.zero), m / 5⟩ ∧
        (mkEllipsoid name m L axis ml ma).particles[4]? =
          some ⟨"CL", (Vec3.smul (ml.getD 0 / 2) (ma.getD Vec3.zero)).neg, m / 5⟩) ∧
    (mkEllipsoid name m L axis ml ma).bonds = [("CC", "CH")] := by
  by_cases h5 : hasFive ml ma = true
  · refine ⟨by simp [mkEllipsoid, h5], ?_, by simp [mkEllipsoid, h5],
      by simp [mkEllipsoid, h5], by simp [mkEllipsoid, h5], ?_, ?_,
      by simp [mkEllipsoid, h5]⟩
    · rw [← hasFive_iff]
      simp [mkEllipsoid, h5]
    · intro p hp
      simp only [mkEllipsoid, h5, if_true] at hp
      simp only [List.mem_cons, List.not_mem_nil, or_false] at hp
      rcases hp with rfl | rfl | rfl | rfl | rfl <;> simp [h5]
    · intro _
      exact ⟨by simp [mkEllipsoid, h5], by simp [mkEllipsoid, h5]⟩
  · have h5f : hasFive ml ma = false := by
      simpa using h5
    refine ⟨by simp [mkEllipsoid, h5f], ?_, by simp [mkEllipsoid, h5f],
      by simp [mkEllipsoid, h5f], by simp [mkEllipsoid, h5f], ?_, ?_,
      by simp [mkEllipsoid, h5f]⟩
    · rw [← hasFive_iff]
      simp [mkEllipsoid, h5f]
    · intro p hp
      simp only [mkEllipsoid, h5f, Bool.false_eq_true, if_false] at hp
      simp only [List.mem_cons, List.not_mem_nil, or_false] at hp
      rcases hp with rfl | rfl | rfl <;> simp [h5f]
    · intro h
      exact absurd h (by simp [h5f])

/-- C3 amended-claim witness: the 5-particle case at concrete inputs, with
the right constituent at `+minor_axis*minor_length/2`. -/
theorem mkEllipsoid_spec_witness :
    hasFive (some 1) (some ⟨0, 1, 0⟩) = true ∧
    (mkEllipsoid "A" 100 2 ⟨1, 0, 0⟩ (some 1) (some ⟨0, 1, 0⟩)).particles[3]? =
      some ⟨"CR", Vec3.smul ((some (1 : ℚ)).getD 0 / 2) ((some (⟨0, 1, 0⟩ : Vec3)).getD Vec3.zero),
            100 / 5⟩ :=
  ⟨by decide,
   ((mkEllipsoid_spec "A" 100 2 ⟨1, 0, 0⟩ (some 1) (some ⟨0, 1, 0⟩)).2.2.2.2.2.2.1
      (by decide)).1⟩

/-- C5: System.stack raises its validation error (ValueError, the spec's
ConfigurationError) if and only if the total chain count differs from
`2*n*n`, and proceeds without raising when the count equals `2*n*n`
(system.py:160-166). -/
theorem stack_guard (cs : List ℤ) (n : ℤ) :
    (stack cs n = .error .valueError ↔ cs.sum ≠ n * n * 2) ∧
    (cs.sum = n * n * 2 → stack cs n = .ok ()) := by
  constructor
  · unfold stack
    split_ifs with h <;> simp [h]
  · intro h
    simp [stack, h]

/-- C5 witness: 8 chains on a 2×2 lattice satisfy `8 = 2*2*2` and stack
proceeds without raising. -/
theorem stack_guard_witness :
    (([8] : List ℤ).sum = 2 * 2 * 2) ∧ stack [8] 2 = .ok () :=
  ⟨by decide, (stack_guard [8] 2).2 (by decide)⟩

/-- The call `Ellipsoid(mass=..., length=...)` of system.py:88-90 always
raises TypeError against the signature of Ellipsoid.__init__: `length` is
not a parameter and `name` (and `major_length`) is unbound. -/
theorem systemEllipsoidCall_typeError :
    systemEllipsoidCall = .error .typeError := by
  rfl

/-- The inner chain loop raises TypeError as soon as it runs at least one
iteration. -/
theorem systemChainInnerLoop_err (k acc : ℕ) (h : 0 < k) :
    systemChainInnerLoop k acc = .error .typeError := by
  cases k with
  | zero => exact absurd h (lt_irrefl 0)
  | succ k0 => rfl

/-- The outer chain loop over zipped `(count, length)` pairs raises
TypeError exactly when some requested chain count is at least 1; with every
count below 1 it builds no chain and returns the accumulator. -/
theorem systemChainLoop_spec : ∀ (ncs cls : List ℤ) (acc : ℕ),
    ncs.length = cls.length →
    ((∃ n ∈ ncs, 1 ≤ n) → systemChainLoop (ncs.zip cls) acc = .error .typeError) ∧
    ((∀ n ∈ ncs, n < 1) → systemChainLoop (ncs.zip cls) acc = .ok acc) := by
  intro ncs
  induction ncs with
  | nil =>
    intro cls acc _
    exact ⟨fun h => by simp at h, fun _ => by simp [systemChainLoop]⟩
  | cons n0 rest ih =>
    intro cls acc hlen
    cases cls with
    | nil => simp at hlen
    | cons l0 ls =>
      have hlen2 : rest.length = ls.length := by simpa using hlen
      constructor
      · rintro ⟨n, hn, h1⟩
        rcases List.mem_cons.mp hn with rfl | hmem
        · have h0 : 0 < n.toNat := by omega
          simp [systemChainLoop, systemChainInnerLoop_err _ _ h0]
        · by_cases h0 : 0 < n0.toNat
          · simp [systemChainLoop, systemChainInnerLoop_err _ _ h0]
          · have hz : n0.toNat = 0 := by omega
            have hok : systemChainInnerLoop n0.toNat acc = .ok acc := by
              rw [hz]
              rfl
            simp only [List.zip_cons_cons, systemChainLoop, hok]
            exact (ih ls acc hlen2).1 ⟨n, hmem, h1⟩
      · intro hall
        have hz : n0.toNat = 0 := by
          have := hall n0 (List.mem_cons_self _ _)
          omega
        have hok : systemChainInnerLoop n0.toNat acc = .ok acc := by
          rw [hz]
          rfl
        simp only [List.zip_cons_cons, systemChainLoop, hok]
        exact (ih ls acc hlen2).2 fun n hn => hall n (List.mem_cons_of_mem _ hn)

/-- C7: evaluating System.__init__ at its failing inputs.  Both for a
requested chain length below 1 and for a valid chain length of 3, the
constructor raises TypeError from the `Ellipsoid(mass=..., length=...)`
call of system.py:88-90 before any length validation or chain assembly can
happen, instead of the ConfigurationError / n-bead chain the claim
describes. -/
theorem systemInit_eval :
    systemInit [1] [0] 2 100 1 (1 / 10) = .error .typeError ∧
    systemInit [1] [3] 2 100 1 (1 / 10) = .error .typeError := by
  exact ⟨rfl, rfl⟩

/-- C9 counterexample: with `n_chains = [0]` the chain-building loop body
never executes, so System.__init__ completes without raising any TypeError
— the claim's universal "for every combination of constructor arguments"
fails on this degenerate input. -/
theorem systemInit_vacuous_counterexample :
    systemInit [0] [5] 2 100 1 (1 / 10) = .ok 0 ∧
    systemInit [0] [5] 2 100 1 (1 / 10) ≠ .error .typeError := by
  constructor
  · rfl
  · intro h
    rw [show systemInit [0] [5] 2 100 1 (1 / 10) = Except.ok 0 from rfl] at h
    exact Except.noConfusion h

/-- C9 (amended): whenever the two argument lists have equal length and
some requested chain count is at least 1 — i.e. whenever the loop body
runs at all — System.__init__ raises TypeError from instantiating
Ellipsoid with the keyword arguments `mass` and `length` (Ellipsoid
accepts no parameter named `length` and requires `name`), so construction
never succeeds with any bead; it completes only vacuously, with zero
chains built, when every chain count is below 1. -/
theorem systemInit_always_fails (ncs cls : List ℤ) (bl bm d bond : ℚ)
    (hlen : ncs.length = cls.length) :
    ((∃ n ∈ ncs, 1 ≤ n) → systemInit ncs cls bl bm d bond = .error .typeError) ∧
    ((∀ n ∈ ncs, n < 1) → systemInit ncs cls bl bm d bond = .ok 0) := by
  have h := systemChainLoop_spec ncs cls 0 hlen
  constructor
  · intro hex
    simp [systemInit, hlen, h.1 hex]
  · intro hall
    simp [systemInit, hlen, h.2 hall]

/-- C9 amended-claim witness: one chain of length 3 is requested and the
constructor raises TypeError. -/
theorem systemInit_always_fails_witness :
    (([1] : List ℤ).length = ([3] : List ℤ).length) ∧
    (∃ n ∈ ([1] : List ℤ), 1 ≤ n) ∧
    systemInit [1] [3] 2 100 1 (1 / 10) = .error .typeError :=
  ⟨rfl, by decide,
   (systemInit_always_fails [1] [3] 2 100 1 (1 / 10) rfl).1 (by decide)⟩

/-- `overwriteFirstK` rewrites exactly the first `k` existing rows. -/
theorem overwriteFirstK_getElem (k : ℕ) (v : Vec3) (l : List Vec3) (i : ℕ) :
    (overwriteFirstK k v l)[i]? =
      if i < k ∧ i < l.length then some v else l[i]? := by
  induction l generalizing k i with
  | nil => simp [overwriteFirstK]
  | cons a rest ih =>
    cases k with
    | zero => simp [overwriteFirstK]
    | succ k0 =>
      cases i with
      | zero => simp [overwriteFirstK]
      | succ i0 =>
        simp [overwriteFirstK, ih k0 i0, Nat.succ_lt_succ_iff]

/-- C10: during Simulation setup the moment of inertia is computed once,
from only the first bead's two constituent particles (snapshot indices
`n_beads` and `n_beads + 1`, re-centered on the first rigid center's
position at index 0), with each constituent assigned mass `bead_mass/2`;
that single row is written identically into the moment-of-inertia entries
of all `n_beads` rigid centers, leaving every other entry and array
untouched, and the written value does not depend on the snapshot's
per-particle mass array or on any other particle's position
(simulate.py:97-114). -/
theorem setMomentInertia_spec (snap : Snapshot) (n_beads : ℕ) (bm : ℚ)
    (hpos : n_beads + 1 < snap.positions.length)
    (hmi : n_beads ≤ snap.moment_inertia.length) :
    (∀ i, i < n_beads →
       (setMomentInertia n_beads bm snap).moment_inertia[i]? =
         some (moit
            [(snap.positions.getD n_beads Vec3.zero).sub (snap.positions.getD 0 Vec3.zero),
             (snap.positions.getD (n_beads + 1) Vec3.zero).sub (snap.positions.getD 0 Vec3.zero)]
            [bm / 2, bm / 2])) ∧
    (∀ i, n_beads ≤ i →
       (setMomentInertia n_beads bm snap).moment_inertia[i]? = snap.moment_inertia[i]?) ∧
    (setMomentInertia n_beads bm snap).positions = snap.positions ∧
    (setMomentInertia n_beads bm snap).masses = snap.masses ∧
    (∀ snap2 : Snapshot,
       snap2.positions.getD 0 Vec3.zero = snap.positions.getD 0 Vec3.zero →
       snap2.positions.getD n_beads Vec3.zero = snap.positions.getD n_beads Vec3.zero →
       snap2.positions.getD (n_beads + 1) Vec3.zero = snap.positions.getD (n_beads + 1) Vec3.zero →
       ∀ i, i < n_beads → i < snap2.moment_inertia.length →
         (setMomentInertia n_beads bm snap2).moment_inertia[i]? =
           (setMomentInertia n_beads bm snap).moment_inertia[i]?) := by
  have _ := hpos
  refine ⟨?_, ?_, rfl, rfl, ?_⟩
  · intro i hi
    have hil : i < snap.moment_inertia.length := lt_of_lt_of_le hi hmi
    simp [setMomentInertia, overwriteFirstK_getElem, hi, hil]
  · intro i hi
    have : ¬ (i < n_beads ∧ i < snap.moment_inertia.length) := by omega
    simp [setMomentInertia, overwriteFirstK_getElem, this]
  · intro snap2 h0 h1 h2 i hi hil2
    have hil : i < snap.moment_inertia.length := lt_of_lt_of_le hi hmi
    simp only [List.getD_eq_getElem?_getD] at h0 h1 h2
    simp [setMomentInertia, overwriteFirstK_getElem, hi, hil, hil2, h0, h1, h2]

/-- C10 witness: a concrete three-particle snapshot with one rigid center;
its moment-of-inertia row 0 receives the value computed from particles 1
and 2 with masses `100/2` each. -/
theorem setMomentInertia_spec_witness :
    (1 + 1 < witnessSnap.positions.length) ∧
    (1 ≤ witnessSnap.moment_inertia.length) ∧
    (setMomentInertia 1 100 witnessSnap).moment_inertia[0]? =
      some (moit
        [(witnessSnap.positions.getD 1 Vec3.zero).sub (witnessSnap.positions.getD 0 Vec3.zero),
         (witnessSnap.positions.getD 2 Vec3.zero).sub (witnessSnap.positions.getD 0 Vec3.zero)]
        [100 / 2, 100 / 2]) :=
  ⟨by decide, by decide,
   (setMomentInertia_spec witnessSnap 1 100 (by decide) (by decide)).1 0 (by decide)⟩

/-- C2: on a Simulation whose shrink phase has run (so a thermostat method
is installed), quench mutates the temperature of the existing first method
object in place — same object identity, no new method constructed, the
integrator not re-added and the force/rigid registration counts untouched —
while on a Simulation whose shrink has not run it constructs exactly one
fresh thermostat method and registers it (simulate.py:183-204). -/
theorem quench_spec (s : SimState) (kT : ℚ) (n : ℕ) :
    (∀ m rest, s.ran_shrink = true → s.methods = m :: rest →
       quench kT n s = .ok { s with
          methods := { m with kT := kT } :: rest,
          trace := s.trace ++ [.setKT kT, .thermalize kT, .run n] }) ∧
    (s.ran_shrink = false →
       quench kT n s = .ok { s with
          methods := [⟨s.nextId, kT⟩],
          nextId := s.nextId + 1,
          created := s.created + 1,
          integratorAdds := s.integratorAdds + 1,
          trace := s.trace ++ [.newMethod s.nextId kT, .addIntegrator,
                               .thermalize kT, .run n] }) := by
  constructor
  · intro m rest hr hm
    simp [quench, hr, setHeadKT, hm, thermalizeRun]
  · intro hr
    simp [quench, hr, installFresh, newNVT, thermalizeRun]

/-- C2 witness: from the state reached by one shrink phase, quench at
`kT = 2` updates the sole method in place. -/
theorem quench_spec_witness :
    shrunkState.ran_shrink = true ∧
    shrunkState.methods = ⟨0, 1⟩ :: [] ∧
    quench 2 10 shrunkState = .ok { shrunkState with
        methods := [⟨0, 2⟩],
        trace := shrunkState.trace ++ [.setKT 2, .thermalize 2, .run 10] } :=
  ⟨rfl, rfl, (quench_spec shrunkState 2 10).1 ⟨0, 1⟩ [] rfl rfl⟩

/-- Executing a schedule only mutates the head method's temperature and
appends the per-segment engine events: it constructs no method object,
keeps every method identity, and registers nothing. -/
theorem annealLoop_invariants : ∀ (sched : List (ℚ × ℕ)) (s s' : SimState),
    annealLoop sched s = .ok s' →
    s'.created = s.created ∧
    s'.methods.map Method.id = s.methods.map Method.id ∧
    s'.methods.length = s.methods.length ∧
    s'.nextId = s.nextId ∧
    s'.integratorAdds = s.integratorAdds ∧
    s'.forcesRegistrations = s.forcesRegistrations ∧
    s'.rigidRegistrations = s.rigidRegistrations ∧
    s'.ran_shrink = s.ran_shrink ∧
    ∃ tail, s'.trace = s.trace ++ tail := by
  intro sched
  induction sched with
  | nil =>
    intro s s' h
    have : s = s' := by
      simpa [annealLoop] using h
    subst this
    exact ⟨rfl, rfl, rfl, rfl, rfl, rfl, rfl, rfl, [], by simp⟩
  | cons p rest ih =>
    intro s s' h
    obtain ⟨kT, steps⟩ := p
    cases hm : s.methods with
    | nil =>
      rw [annealLoop, setHeadKT, hm] at h
      exact Except.noConfusion h
    | cons m ms =>
      rw [annealLoop, setHeadKT, hm] at h
      simp only [thermalizeRun] at h
      have h2 := ih _ _ h
      refine ⟨h2.1, ?_, ?_, h2.2.2.2.1, h2.2.2.2.2.1, h2.2.2.2.2.2.1,
        h2.2.2.2.2.2.2.1, h2.2.2.2.2.2.2.2.1, ?_⟩
      · rw [h2.2.1]
        simp [hm]
      · rw [h2.2.2.1]
        simp [hm]
      · obtain ⟨tail, ht⟩ := h2.2.2.2.2.2.2.2.2
        exact ⟨[.setKT kT, .thermalize kT, .run steps] ++ tail, by
          simp [ht]⟩

/-- C6 counterexample: quench without a prior shrink installs a thermostat
method (object id 0, one method constructed); a subsequent anneal — a state
in which quench has run — does not reuse it: it constructs a second fresh
method (object id 1) because anneal tests only the `ran_shrink` flag
(simulate.py:232-237). -/
theorem anneal_after_quench_counterexample :
    ((quench 2 5 initSimState).map fun s => s.created) = .ok 1 ∧
    ((quench 2 5 initSimState).map fun s => s.methods.map Method.id) = .ok [0] ∧
    (((quench 2 5 initSimState).bind (anneal 1 1 [10] [])).map
        fun s => s.created) = .ok 2 ∧
    (((quench 2 5 initSimState).bind (anneal 1 1 [10] [])).map
        fun s => s.methods.map Method.id) = .ok [1] := by
  refine ⟨rfl, rfl, rfl, rfl⟩

/-- C6 (amended): anneal creates a fresh thermostat method at the default
`kT = 1.0` exactly when shrink has not previously run — even when a quench
already installed one, that method is discarded and a second one is
created; only after shrink does anneal reuse the already-registered method
object; and the integrator's method slot holds at most one method
throughout (simulate.py:232-237). -/
theorem anneal_method_creation (a b : ℚ) (seq : List ℕ) (sch : List (ℚ × ℕ))
    (s : SimState) :
    (s.ran_shrink = false → ∀ s', anneal a b seq sch s = .ok s' →
       s'.created = s.created + 1 ∧
       ∃ tail, s'.trace = (s.trace ++ [.newMethod s.nextId 1, .addIntegrator]) ++ tail) ∧
    (s.ran_shrink = true → ∀ s', anneal a b seq sch s = .ok s' →
       s'.created = s.created ∧
       s'.methods.map Method.id = s.methods.map Method.id) ∧
    (s.methods.length ≤ 1 → ∀ s', anneal a b seq sch s = .ok s' →
       s'.methods.length ≤ 1) := by
  refine ⟨?_, ?_, ?_⟩
  · intro hr s' h
    rw [anneal] at h
    simp only [hr, Bool.false_eq_true, if_false] at h
    have h2 := annealLoop_invariants _ _ _ h
    constructor
    · rw [h2.1]
      rfl
    · obtain ⟨tail, ht⟩ := h2.2.2.2.2.2.2.2.2
      exact ⟨tail, by simpa [installFresh, newNVT] using ht⟩
  · intro hr s' h
    rw [anneal] at h
    simp only [hr, if_true] at h
    have h2 := annealLoop_invariants _ _ _ h
    exact ⟨h2.1, h2.2.1⟩
  · intro hlen s' h
    rw [anneal] at h
    by_cases hr : s.ran_shrink
    · simp only [hr, if_true] at h
      have h2 := annealLoop_invariants _ _ _ h
      rw [h2.2.2.1]
      exact hlen
    · simp only [hr, Bool.false_eq_true, if_false] at h
      have h2 := annealLoop_invariants _ _ _ h
      rw [h2.2.2.1]
      simp [installFresh, newNVT]

/-- C6 amended-claim witness: after shrink has run, anneal reuses the
installed method — the creation count and the method's object identity are
unchanged. -/
theorem anneal_method_creation_witness :
    shrunkState.ran_shrink = true ∧
    anneal 1 2 [10] [] shrunkState = .ok annealShrunkResult ∧
    annealShrunkResult.created = shrunkState.created ∧
    annealShrunkResult.methods.map Method.id = shrunkState.methods.map Method.id := by
  have hok : anneal 1 2 [10] [] shrunkState = .ok annealShrunkResult := by
    with_unfolding_all rfl
  have h := (anneal_method_creation 1 2 [10] [] shrunkState).2.1 rfl
    annealShrunkResult hok
  exact ⟨rfl, hok, h.1, h.2⟩

/-- C8 counterexample: calling anneal with an empty `step_sequence` and no
explicit schedule raises nothing at all — the loop over the (empty)
schedule simply never runs, zero simulation steps are taken, and the call
returns normally after installing the default thermostat method
(simulate.py:239-249). -/
theorem anneal_empty_counterexample :
    anneal 1 2 [] [] initSimState = .ok (installFresh 1 initSimState) ∧
    ((anneal 1 2 [] [] initSimState).map
        fun s => (s.trace.filter isRunEvent).length) = .ok 0 ∧
    anneal 1 2 [] [] initSimState ≠ .error .valueError := by
  refine ⟨rfl, rfl, ?_⟩
  intro h
  rw [show anneal 1 2 [] [] initSimState = .ok (installFresh 1 initSimState) from rfl] at h
  exact Except.noConfusion h

/-- C8 (amended): with an empty `step_sequence` and no explicit schedule,
anneal raises no error and runs zero simulation steps: after shrink it
returns with the state unchanged, and without a prior shrink it only
creates and registers the default thermostat method before executing zero
schedule segments. -/
theorem anneal_empty_schedule (a b : ℚ) (s : SimState) :
    (s.ran_shrink = true → anneal a b [] [] s = .ok s) ∧
    (s.ran_shrink = false → anneal a b [] [] s = .ok (installFresh 1 s)) ∧
    (∀ s', anneal a b [] [] s = .ok s' →
       (s'.trace.filter isRunEvent).length = (s.trace.filter isRunEvent).length) := by
  have hsched : buildSchedule a b [] = [] := rfl
  refine ⟨?_, ?_, ?_⟩
  · intro hr
    simp [anneal, hr, hsched, annealLoop]
  · intro hr
    simp [anneal, hr, hsched, annealLoop]
  · intro s' h
    by_cases hr : s.ran_shrink
    · simp only [anneal, hr, if_true, if_pos rfl, hsched, annealLoop, Except.ok.injEq] at h
      rw [← h]
    · simp only [anneal, hr, Bool.false_eq_true, if_false, if_pos rfl, hsched,
        annealLoop, Except.ok.injEq] at h
      rw [← h]
      simp [installFresh, newNVT, isRunEvent, List.filter_append]

/-- C8 amended-claim witness: from the post-shrink state, anneal with an
empty schedule returns that state unchanged. -/
theorem anneal_empty_schedule_witness :
    shrunkState.ran_shrink = true ∧
    anneal 1 2 [] [] shrunkState = .ok shrunkState :=
  ⟨rfl, (anneal_empty_schedule 1 2 shrunkState).1 rfl⟩

/-- Executing a schedule from a state with an installed method succeeds and
appends exactly the per-segment events of the schedule, in order. -/
theorem annealLoop_trace : ∀ (sched : List (ℚ × ℕ)) (s : SimState),
    s.methods ≠ [] →
    ∃ s', annealLoop sched s = .ok s' ∧ s'.trace = s.trace ++ segTrace sched := by
  intro sched
  induction sched with
  | nil =>
    intro s _
    exact ⟨s, rfl, by simp [segTrace]⟩
  | cons p rest ih =>
    intro s hm
    obtain ⟨kT, steps⟩ := p
    cases hme : s.methods with
    | nil => exact absurd hme hm
    | cons m ms =>
      rw [annealLoop, setHeadKT, hme]
      simp only [thermalizeRun]
      obtain ⟨s', hs', ht⟩ := ih
        { s with
            methods := { m with kT := kT } :: ms
            trace := s.trace ++ [Event.setKT kT] ++ [Event.thermalize kT, Event.run steps] }
        (by simp)
      refine ⟨s', hs', ?_⟩
      rw [ht]
      simp [segTrace, segEvents]

/-- C4: with no explicit schedule, anneal executes — in insertion order,
setting the thermostat temperature and re-thermalizing before each
segment's run — exactly the schedule built by rounding
`len(step_sequence)` linearly spaced temperatures from `kT_init` to
`kT_final` to one decimal and zipping them with the step counts, duplicate
rounded temperatures silently overwriting earlier entries; in particular
`kT_init=1.0, kT_final=2.0, step_sequence=[10,10,10]` yields the three
ascending rounded temperatures 1.0, 1.5, 2.0, each mapped to 10 steps
(simulate.py:239-249). -/
theorem anneal_linear_ramp (a b : ℚ) (seq : List ℕ) (s : SimState)
    (hseq : seq ≠ []) (hm : s.ran_shrink = true → s.methods ≠ []) :
    (∃ s' pre, anneal a b seq [] s = .ok s' ∧
       ((s.ran_shrink = true ∧ pre = []) ∨
        (s.ran_shrink = false ∧ pre = [Event.newMethod s.nextId 1, Event.addIntegrator])) ∧
       s'.trace = s.trace ++ pre ++
         segTrace (dictZip ((linspace a b seq.length).map round1) seq)) ∧
    (∀ t : ℚ, ∀ n1 n2 : ℕ, dictZip [t, t] [n1, n2] = [(t, n2)]) ∧
    buildSchedule 1 2 [10, 10, 10] = [(1, 10), (3 / 2, 10), (2, 10)] ∧
    ((1 : ℚ) < 3 / 2 ∧ (3 / 2 : ℚ) < 2) := by
  have _ := hseq
  refine ⟨?_, ?_, ?_, by norm_num, by norm_num⟩
  · by_cases hr : s.ran_shrink
    · obtain ⟨s', hs', ht⟩ := annealLoop_trace (buildSchedule a b seq) s (hm hr)
      refine ⟨s', [], ?_, Or.inl ⟨hr, rfl⟩, ?_⟩
      · rw [anneal]
        simpa [hr] using hs'
      · rw [ht]
        simp [buildSchedule]
    · obtain ⟨s', hs', ht⟩ := annealLoop_trace (buildSchedule a b seq)
        (installFresh 1 s) (by simp [installFresh, newNVT])
      refine ⟨s', [Event.newMethod s.nextId 1, Event.addIntegrator], ?_,
        Or.inr ⟨by simpa using hr, rfl⟩, ?_⟩
      · rw [anneal]
        simpa [hr] using hs'
      · rw [ht]
        simp [installFresh, newNVT, buildSchedule, List.append_assoc]
  · intro t n1 n2
    simp [dictZip, dictInsert]
  · with_unfolding_all rfl

/-- C4 witness: the concrete instance of the claim at
`kT_init=1.0, kT_final=2.0, step_sequence=[10,10,10]`. -/
theorem anneal_linear_ramp_witness :
    (([10, 10, 10] : List ℕ) ≠ []) ∧
    buildSchedule 1 2 [10, 10, 10] = [(1, 10), (3 / 2, 10), (2, 10)] :=
  ⟨by simp,
   (anneal_linear_ramp 1 2 [10, 10, 10] shrunkState (by simp)
      (fun _ => by simp [shrunkState, shrink, installFresh, newNVT, thermalizeRun])).2.2.1⟩

/-- C1: for every positive system mass and density, set_target_box returns
a cubic box of edge `(mass_in_g/density)^(1/3)` (converted to nm) when no
edge is constrained; with exactly one fixed edge the two free edges each
equal `sqrt(volume/fixed)`; with exactly two fixed edges the remaining edge
equals `volume/(product of fixed)`; whenever at most two edges are fixed
(to positive lengths) the product of the three edges converted back to cm
equals `mass_in_g/density` exactly; and the computation is deterministic —
two calls on identical inputs agree (system.py:200-260). -/
theorem set_target_box_spec (m ρ : ℝ) (hm : 0 < m) (hρ : 0 < ρ) :
    set_target_box m ρ none none none =
      (volOf m ρ ^ ((1 : ℝ) / 3) * cm_to_nm, volOf m ρ ^ ((1 : ℝ) / 3) * cm_to_nm,
       volOf m ρ ^ ((1 : ℝ) / 3) * cm_to_nm) ∧
    (∀ a : ℝ, 0 < a →
      set_target_box m ρ (some a) none none =
        (a, Real.sqrt (volOf m ρ / (a / cm_to_nm)) * cm_to_nm,
            Real.sqrt (volOf m ρ / (a / cm_to_nm)) * cm_to_nm) ∧
      set_target_box m ρ none (some a) none =
        (Real.sqrt (volOf m ρ / (a / cm_to_nm)) * cm_to_nm, a,
         Real.sqrt (volOf m ρ / (a / cm_to_nm)) * cm_to_nm) ∧
      set_target_box m ρ none none (some a) =
        (Real.sqrt (volOf m ρ / (a / cm_to_nm)) * cm_to_nm,
         Real.sqrt (volOf m ρ / (a / cm_to_nm)) * cm_to_nm, a)) ∧
    (∀ a b : ℝ, 0 < a → 0 < b →
      set_target_box m ρ (some a) (some b) none =
        (a, b, volOf m ρ / (a / cm_to_nm * (b / cm_to_nm)) * cm_to_nm) ∧
      set_target_box m ρ (some a) none (some b) =
        (a, volOf m ρ / (a / cm_to_nm * (b / cm_to_nm)) * cm_to_nm, b) ∧
      set_target_box m ρ none (some a) (some b) =
        (volOf m ρ / (a / cm_to_nm * (b / cm_to_nm)) * cm_to_nm, a, b)) ∧
    (∀ xc yc zc : Option ℝ, optPos xc → optPos yc → optPos zc →
      (xc = none ∨ yc = none ∨ zc = none) →
      boxProd (set_target_box m ρ xc yc zc) / cm_to_nm ^ 3 = volOf m ρ) ∧
    (∀ xc yc zc : Option ℝ,
      set_target_box m ρ xc yc zc = set_target_box m ρ xc yc zc) := by
  have hc : (0 : ℝ) < cm_to_nm := by norm_num [cm_to_nm]
  have hg : (0 : ℝ) < amu_to_g := by norm_num [amu_to_g]
  have hvol : 0 < volOf m ρ := div_pos (mul_pos hm hg) hρ
  have case1 : ∀ a : ℝ, calculate_L m ρ (some [a / cm_to_nm]) =
      Real.sqrt (volOf m ρ / (a / cm_to_nm)) * cm_to_nm := by
    intro a
    rw [Real.sqrt_eq_rpow]
    unfold calculate_L
    simp
  have case2 : ∀ a b : ℝ, calculate_L m ρ (some [a / cm_to_nm, b / cm_to_nm]) =
      volOf m ρ / (a / cm_to_nm * (b / cm_to_nm)) * cm_to_nm := by
    intro a b
    unfold calculate_L
    simp
  have boxProd_mk : ∀ x y z : ℝ, boxProd (x, y, z) = x * y * z := fun _ _ _ => rfl
  have case0 : set_target_box m ρ none none none =
      (volOf m ρ ^ ((1 : ℝ) / 3) * cm_to_nm, volOf m ρ ^ ((1 : ℝ) / 3) * cm_to_nm,
       volOf m ρ ^ ((1 : ℝ) / 3) * cm_to_nm) := by
    unfold set_target_box
    rw [if_neg (by simp [truthyR])]
    rfl
  have pos1x : ∀ a : ℝ, 0 < a → set_target_box m ρ (some a) none none =
      (a, calculate_L m ρ (some [a / cm_to_nm]), calculate_L m ρ (some [a / cm_to_nm])) := by
    intro a ha
    unfold set_target_box
    rw [if_pos (Or.inl ⟨by simp, by simp [ha.ne']⟩)]
    try simp
  have pos1y : ∀ a : ℝ, 0 < a → set_target_box m ρ none (some a) none =
      (calculate_L m ρ (some [a / cm_to_nm]), a, calculate_L m ρ (some [a / cm_to_nm])) := by
    intro a ha
    unfold set_target_box
    rw [if_pos (Or.inr (Or.inl ⟨by simp, by simp [ha.ne']⟩))]
    try simp
  have pos1z : ∀ a : ℝ, 0 < a → set_target_box m ρ none none (some a) =
      (calculate_L m ρ (some [a / cm_to_nm]), calculate_L m ρ (some [a / cm_to_nm]), a) := by
    intro a ha
    unfold set_target_box
    rw [if_pos (Or.inr (Or.inr ⟨by simp, by simp [ha.ne']⟩))]
    try simp
  have pos2xy : ∀ a b : ℝ, 0 < a → set_target_box m ρ (some a) (some b) none =
      (a, b, calculate_L m ρ (some [a / cm_to_nm, b / cm_to_nm])) := by
    intro a b ha
    unfold set_target_box
    rw [if_pos (Or.inl ⟨by simp, by simp [ha.ne']⟩)]
    try simp
  have pos2xz : ∀ a b : ℝ, 0 < a → set_target_box m ρ (some a) none (some b) =
      (a, calculate_L m ρ (some [a / cm_to_nm, b / cm_to_nm]), b) := by
    intro a b ha
    unfold set_target_box
    rw [if_pos (Or.inl ⟨by simp, by simp [ha.ne']⟩)]
    try simp
  have pos2yz : ∀ a b : ℝ, 0 < a → set_target_box m ρ none (some a) (some b) =
      (calculate_L m ρ (some [a / cm_to_nm, b / cm_to_nm]), a, b) := by
    intro a b ha
    unfold set_target_box
    rw [if_pos (Or.inr (Or.inl ⟨by simp, by simp [ha.ne']⟩))]
    try simp
  have sqfact : ∀ a : ℝ, 0 < a →
      Real.sqrt (volOf m ρ / (a / cm_to_nm)) * Real.sqrt (volOf m ρ / (a / cm_to_nm)) * a =
        volOf m ρ * cm_to_nm := by
    intro a ha
    have h1 : Real.sqrt (volOf m ρ / (a / cm_to_nm)) * Real.sqrt (volOf m ρ / (a / cm_to_nm)) =
        volOf m ρ / (a / cm_to_nm) := Real.mul_self_sqrt (by positivity)
    rw [h1, div_div_eq_mul_div, div_mul_eq_mul_div, div_eq_iff ha.ne']
  have cubefact : volOf m ρ ^ ((1 : ℝ) / 3) * volOf m ρ ^ ((1 : ℝ) / 3) *
      volOf m ρ ^ ((1 : ℝ) / 3) = volOf m ρ := by
    rw [← Real.rpow_add hvol, ← Real.rpow_add hvol]
    norm_num
  refine ⟨case0, ?_, ?_, ?_, fun _ _ _ => rfl⟩
  · intro a ha
    exact ⟨by rw [pos1x a ha, case1 a], by rw [pos1y a ha, case1 a],
      by rw [pos1z a ha, case1 a]⟩
  · intro a b ha hb
    exact ⟨by rw [pos2xy a b ha, case2 a b], by rw [pos2xz a b ha, case2 a b],
      by rw [pos2yz a b ha, case2 a b]⟩
  · intro xc yc zc hx hy hz hfree
    rcases xc with _ | a <;> rcases yc with _ | b <;> rcases zc with _ | d
    · rw [case0, boxProd_mk]
      rw [div_eq_iff (pow_ne_zero 3 hc.ne')]
      linear_combination cm_to_nm ^ 3 * cubefact
    · have hd := hz d rfl
      rw [pos1z d hd, case1 d, boxProd_mk]
      rw [div_eq_iff (pow_ne_zero 3 hc.ne')]
      linear_combination cm_to_nm ^ 2 * sqfact d hd
    · have hb := hy b rfl
      rw [pos1y b hb, case1 b, boxProd_mk]
      rw [div_eq_iff (pow_ne_zero 3 hc.ne')]
      linear_combination cm_to_nm ^ 2 * sqfact b hb
    · have hb := hy b rfl
      have hd := hz d rfl
      rw [pos2yz b d hb, case2 b d, boxProd_mk]
      rw [div_eq_iff (pow_ne_zero 3 hc.ne')]
      field_simp
      ring
    · have ha := hx a rfl
      rw [pos1x a ha, case1 a, boxProd_mk]
      rw [div_eq_iff (pow_ne_zero 3 hc.ne')]
      linear_combination cm_to_nm ^ 2 * sqfact a ha
    · have ha := hx a rfl
      have hd := hz d rfl
      rw [pos2xz a d ha, case2 a d, boxProd_mk]
      rw [div_eq_iff (pow_ne_zero 3 hc.ne')]
      field_simp
      ring
    · have ha := hx a rfl
      have hb := hy b rfl
      rw [pos2xy a b ha, case2 a b, boxProd_mk]
      rw [div_eq_iff (pow_ne_zero 3 hc.ne')]
      field_simp
      ring
    · rcases hfree with h | h | h <;> exact Option.noConfusion h

/-- C1 witness: at unit mass and density the unconstrained target box is
cubic with edge `(amu_to_g)^(1/3)` nm. -/
theorem set_target_box_spec_witness :
    (0 : ℝ) < 1 ∧
    set_target_box 1 1 none none none =
      (volOf 1 1 ^ ((1 : ℝ) / 3) * cm_to_nm, volOf 1 1 ^ ((1 : ℝ) / 3) * cm_to_nm,
       volOf 1 1 ^ ((1 : ℝ) / 3) * cm_to_nm) :=
  ⟨by norm_num, (set_target_box_spec 1 1 (by norm_num) (by norm_num)).1⟩

end Polyellipsoid
